import Mathlib

/-!
Shallow embedding of the wasm32 machine-dependent FFI core
(src/src/wasm32/ffi.c, wasix-org/libffi).

Type descriptors are modelled as trees (the C code stores them as
mutable graphs with null-terminated element arrays; the in-place
rewrites of replace_type are modelled as pure tree transformations).
Fatal aborts and undefined behaviour (null dereference, unknown kind)
are modelled as Option.none.
-/

namespace Wasm32Ffi

/-- The FFI type kind tags (FFI_TYPE_VOID, FFI_TYPE_INT, ...). -/
inductive FfiKind where
  | void
  | int
  | float
  | double
  | longdouble
  | uint8
  | sint8
  | uint16
  | sint16
  | uint32
  | sint32
  | uint64
  | sint64
  | struct
  | pointer
  | complex
deriving DecidableEq, Repr

/-- An ffi_type descriptor: size, alignment, kind tag, and the
(null-terminated in C, here a list) vector of element descriptors. -/
inductive FfiType where
  | mk (size : Nat) (alignment : Nat) (kind : FfiKind) (elements : List FfiType)

def FfiType.size : FfiType → Nat
  | .mk s _ _ _ => s

def FfiType.alignment : FfiType → Nat
  | .mk _ a _ _ => a

def FfiType.kind : FfiType → FfiKind
  | .mk _ _ k _ => k

def FfiType.elements : FfiType → List FfiType
  | .mk _ _ _ e => e

/-- The built-in descriptor ffi_type_float (size 4, alignment 4). -/
def ffi_type_float : FfiType := .mk 4 4 .float []

/-- The built-in descriptor ffi_type_double (size 8, alignment 8). -/
def ffi_type_double : FfiType := .mk 8 8 .double []

/-- The built-in descriptor ffi_type_longdouble on wasm32
(two 64-bit slots, 16-byte aligned). -/
def ffi_type_longdouble : FfiType := .mk 16 16 .longdouble []

/-- The built-in descriptor ffi_type_sint64 (size 8, alignment 8). -/
def ffi_type_sint64 : FfiType := .mk 8 8 .sint64 []

/-- The built-in descriptor ffi_type_sint32 (size 4, alignment 4). -/
def ffi_type_sint32 : FfiType := .mk 4 4 .sint32 []

/-- The scalar-kind / non-void-count accumulation of replace_type's
struct loop: scalar_type starts as VOID and is overwritten by each
non-void element kind in order (so it ends as the last non-void kind),
number_of_nonvoid_elements counts the non-void elements. -/
def collapse_scan : List FfiType → FfiKind × Nat
  | [] => (FfiKind.void, 0)
  | e :: rest =>
    let kn := collapse_scan rest
    if e.kind = FfiKind.void then kn
    else (if kn.2 = 0 then e.kind else kn.1, kn.2 + 1)

mutual

/-- replace_type from ffi.c: canonicalise one descriptor in place.
The C function returns the new kind tag, which always equals the kind
field of the rewritten descriptor, so here the rewritten descriptor is
returned. none models ABORT_WITH_MSG / null dereference. -/
def replace_type : FfiType → Bool → Option FfiType
  | FfiType.mk size alignment kind elements, in_results =>
    if kind = FfiKind.complex then
      match elements with
      | [] => none
      | complex_type :: _ =>
        match complex_type.kind with
        | FfiKind.float =>
          some (FfiType.mk (complex_type.size * 2) complex_type.alignment
            FfiKind.struct [ffi_type_float, ffi_type_float])
        | FfiKind.double =>
          some (FfiType.mk (complex_type.size * 2) complex_type.alignment
            FfiKind.struct [ffi_type_double, ffi_type_double])
        | FfiKind.longdouble =>
          some (FfiType.mk (complex_type.size * 2) complex_type.alignment
            FfiKind.struct [ffi_type_longdouble, ffi_type_longdouble])
        | _ => none
    else if in_results ∧ kind = FfiKind.longdouble then
      some (FfiType.mk (ffi_type_sint64.size * 2) 16 FfiKind.struct
        [ffi_type_sint64, ffi_type_sint64])
    else if kind = FfiKind.struct then
      if size = 0 then some (FfiType.mk size alignment FfiKind.void elements)
      else
        match replace_elements elements with
        | none => none
        | some elements2 =>
          if (collapse_scan elements2).2 > 1 then
            some (FfiType.mk size alignment FfiKind.struct elements2)
          else
            some (FfiType.mk size alignment (collapse_scan elements2).1 elements2)
    else some (FfiType.mk size alignment kind elements)

/-- The element loop of replace_type's struct branch: each element is
canonicalised with in_results = false, in order. -/
def replace_elements : List FfiType → Option (List FfiType)
  | [] => some []
  | e :: rest =>
    match replace_type e false, replace_elements rest with
    | some e2, some rest2 => some (e2 :: rest2)
    | _, _ => none

end

/-- replace_type applied to a possibly-null (Option) descriptor pointer:
a null type returns FFI_TYPE_VOID without any rewrite. -/
def replace_type_opt : Option FfiType → Bool → Option (Option FfiType)
  | none, _ => some none
  | some t, in_results => (replace_type t in_results).map some

/-- ffi_status return codes. -/
inductive FfiStatus where
  | ok
  | bad_typedef
  | bad_abi
deriving DecidableEq, Repr

/-- The ABI tag FFI_WASM32. -/
def FFI_WASM32 : Nat := 1

/-- The ABI tag FFI_WASM32_EMSCRIPTEN. -/
def FFI_WASM32_EMSCRIPTEN : Nat := 2

/-- MAX_ARGS from ffi.c: most wasm runtimes support at most 1000
trampoline arguments. -/
def MAX_ARGS : Nat := 1000

/-- VARARGS_FLAG, bit 0 of cif.flags. -/
def VARARGS_FLAG : Nat := 1

/-- The ffi_cif call-interface descriptor (abi tag, argument count,
argument type vector, return type (null = void), fixed-argument count,
flags bit field). -/
structure FfiCif where
  abi : Nat
  nargs : Nat
  arg_types : List FfiType
  rtype : Option FfiType
  nfixedargs : Nat
  flags : Nat

/-- ffi_prep_cif_machdep, non-emscripten (WASIX) variant: canonicalise
every argument type (in_results = false) and the return type
(in_results = true), set nfixedargs := nargs unless the VARARGS flag is
set, and reject nargs > MAX_ARGS with FFI_BAD_TYPEDEF. Returns the
mutated cif together with the status; none models an abort inside
replace_type. -/
def ffi_prep_cif_machdep (cif : FfiCif) : Option (FfiCif × FfiStatus) :=
  match replace_elements cif.arg_types, replace_type_opt cif.rtype true with
  | some args2, some rt2 =>
    let cif3 : FfiCif :=
      if Nat.land cif.flags VARARGS_FLAG = 0 then
        { cif with arg_types := args2, rtype := rt2, nfixedargs := cif.nargs }
      else { cif with arg_types := args2, rtype := rt2 }
    if cif.nargs > MAX_ARGS then some (cif3, FfiStatus.bad_typedef)
    else some (cif3, FfiStatus.ok)
  | _, _ => none

/-- ffi_prep_cif_machdep, emscripten variant: reject any abi other than
FFI_WASM32_EMSCRIPTEN with FFI_BAD_ABI, reject a COMPLEX return type or
top-level COMPLEX argument with FFI_BAD_TYPEDEF (no rewriting is
performed), then the shared tail (nfixedargs update and MAX_ARGS
check). none models the null dereference of a null rtype. -/
def ffi_prep_cif_machdep_em (cif : FfiCif) : Option (FfiCif × FfiStatus) :=
  if cif.abi ≠ FFI_WASM32_EMSCRIPTEN then some (cif, FfiStatus.bad_abi)
  else
    match cif.rtype with
    | none => none
    | some rt =>
      if rt.kind = FfiKind.complex then some (cif, FfiStatus.bad_typedef)
      else if cif.arg_types.any (fun t => t.kind == FfiKind.complex) then
        some (cif, FfiStatus.bad_typedef)
      else
        let cif3 : FfiCif :=
          if Nat.land cif.flags VARARGS_FLAG = 0 then { cif with nfixedargs := cif.nargs }
          else cif
        if cif.nargs > MAX_ARGS then some (cif3, FfiStatus.bad_typedef)
        else some (cif3, FfiStatus.ok)

/-- ffi_prep_cif_machdep_var, non-emscripten (WASIX) variant: set the
VARARGS bit, record nfixedargs, and return FFI_BAD_ABI (varargs are not
supported without emscripten). The mutations happen before the error
return. -/
def ffi_prep_cif_machdep_var (cif : FfiCif) (nfixedargs ntotalargs : Nat) :
    FfiCif × FfiStatus :=
  let cif2 : FfiCif :=
    { cif with flags := Nat.lor cif.flags VARARGS_FLAG, nfixedargs := nfixedargs }
  (cif2, FfiStatus.bad_abi)

/-- return_indirect from ffi.c: whether the return value is passed
through a hidden first pointer argument. A null return type is treated
as void. COMPLEX and LONGDOUBLE abort (they should have been replaced
during ffi_prep_cif); none models the abort. -/
def return_indirect : Option FfiType → Option Bool
  | none => some false
  | some rt =>
    match rt.kind with
    | FfiKind.void => some false
    | FfiKind.int => some false
    | FfiKind.float => some false
    | FfiKind.uint8 => some false
    | FfiKind.sint8 => some false
    | FfiKind.uint16 => some false
    | FfiKind.sint16 => some false
    | FfiKind.uint32 => some false
    | FfiKind.sint32 => some false
    | FfiKind.uint64 => some false
    | FfiKind.sint64 => some false
    | FfiKind.double => some false
    | FfiKind.pointer => some false
    | FfiKind.struct => some true
    | FfiKind.complex => none
    | FfiKind.longdouble => none

/-- type_size from ffi.c: the wasm C ABI size of a type in bytes.
A null type (no return type) has size 0. COMPLEX aborts. -/
def type_size : Option FfiType → Option Nat
  | none => some 0
  | some t =>
    match t.kind with
    | FfiKind.void => some 0
    | FfiKind.int => some 4
    | FfiKind.uint8 => some 4
    | FfiKind.sint8 => some 4
    | FfiKind.uint16 => some 4
    | FfiKind.sint16 => some 4
    | FfiKind.uint32 => some 4
    | FfiKind.sint32 => some 4
    | FfiKind.float => some 4
    | FfiKind.uint64 => some 8
    | FfiKind.sint64 => some 8
    | FfiKind.double => some 8
    | FfiKind.pointer => some 4
    | FfiKind.struct => some 4
    | FfiKind.longdouble => some 16
    | FfiKind.complex => none

/-- arguments_count from ffi.c: the number of wasm primitive slots a
type occupies. COMPLEX aborts. -/
def arguments_count (t : FfiType) : Option Nat :=
  match t.kind with
  | FfiKind.void => some 0
  | FfiKind.int => some 1
  | FfiKind.float => some 1
  | FfiKind.uint8 => some 1
  | FfiKind.sint8 => some 1
  | FfiKind.uint16 => some 1
  | FfiKind.sint16 => some 1
  | FfiKind.uint32 => some 1
  | FfiKind.sint32 => some 1
  | FfiKind.uint64 => some 1
  | FfiKind.sint64 => some 1
  | FfiKind.double => some 1
  | FfiKind.pointer => some 1
  | FfiKind.struct => some 1
  | FfiKind.longdouble => some 2
  | FfiKind.complex => none

/-- The argument loop of ffi_prep_closure_loc summing arguments_count
over a type list; none as soon as one element aborts. -/
def arguments_count_list : List FfiType → Option Nat
  | [] => some 0
  | t :: ts =>
    match arguments_count t, arguments_count_list ts with
    | some n, some r => some (n + r)
    | _, _ => none

/-- ffi_prep_closure_loc, non-emscripten (WASIX) variant, modelled up to
its returned status: reject cif.abi = FFI_WASM32_EMSCRIPTEN with
FFI_BAD_ABI; otherwise classify the return type (return_indirect, then
arguments_count on the rtype pointer, which dereferences a null rtype)
and every argument type; the classification and place_type abort on
exactly the same kinds (none here), and on success
impl_closure_prepare either aborts or returns FFI_OK. -/
def ffi_prep_closure_loc (cif : FfiCif) : Option FfiStatus :=
  if cif.abi = FFI_WASM32_EMSCRIPTEN then some FfiStatus.bad_abi
  else
    match return_indirect cif.rtype, cif.rtype with
    | some _, some rt =>
      match arguments_count rt, arguments_count_list cif.arg_types with
      | some _, some _ => some FfiStatus.ok
      | _, _ => none
    | _, _ => none

/-- Byte-addressable linear memory. -/
abbrev Mem := Nat → Nat

/-- Read n bytes starting at addr. -/
def readBytes (m : Mem) (addr n : Nat) : List Nat :=
  (List.range n).map (fun i => m (addr + i))

/-- Write the byte list bs starting at addr. -/
def writeBytes (m : Mem) (addr : Nat) (bs : List Nat) : Mem :=
  fun x => if addr ≤ x ∧ x < addr + bs.length then bs.getD (x - addr) 0 else m x

/-- Zero-extend a little-endian byte list to w bytes, as the C cast of
an unsigned narrow integer to UINT32 stores it. -/
def zextBytes (bs : List Nat) (w : Nat) : List Nat :=
  bs ++ List.replicate (w - bs.length) 0

/-- The fill byte of a sign extension whose top source byte is b. -/
def signByte (b : Nat) : Nat := if 128 ≤ b then 255 else 0

/-- Sign-extend a little-endian byte list to w bytes, as the C cast of
a signed narrow integer to SINT32 stores it. -/
def sextBytes (bs : List Nat) (w : Nat) : List Nat :=
  bs ++ List.replicate (w - bs.length) (signByte (bs.getLast?.getD 0))

/-- The w little-endian bytes of the natural v (truncating). -/
def natToLE (v w : Nat) : List Nat :=
  (List.range w).map (fun i => v / 256 ^ i % 256)

/-- Read a little-endian 32-bit value at addr. -/
def readLE32 (m : Mem) (addr : Nat) : Nat :=
  m addr + 256 * m (addr + 1) + 65536 * m (addr + 2) + 16777216 * m (addr + 3)

/-- place_value from ffi.c: lower the value stored at address value
into the values buffer at cursor values, advancing the cursor by the
wasm ABI size. Narrow integers are widened to 32 bits following their
signedness; STRUCT stores the pointer value itself (the address) as an
i32; FLOAT/DOUBLE/LONGDOUBLE copy their raw bytes. COMPLEX and unknown
kinds abort (none). -/
def place_value (type : FfiType) (value : Nat) (values : Nat) (m : Mem) :
    Option (Mem × Nat) :=
  match type.kind with
  | FfiKind.void => some (m, values)
  | FfiKind.uint8 =>
    some (writeBytes m values (zextBytes (readBytes m value 1) 4), values + 4)
  | FfiKind.sint8 =>
    some (writeBytes m values (sextBytes (readBytes m value 1) 4), values + 4)
  | FfiKind.uint16 =>
    some (writeBytes m values (zextBytes (readBytes m value 2) 4), values + 4)
  | FfiKind.sint16 =>
    some (writeBytes m values (sextBytes (readBytes m value 2) 4), values + 4)
  | FfiKind.uint32 =>
    some (writeBytes m values (readBytes m value 4), values + 4)
  | FfiKind.int =>
    some (writeBytes m values (readBytes m value 4), values + 4)
  | FfiKind.sint32 =>
    some (writeBytes m values (readBytes m value 4), values + 4)
  | FfiKind.float =>
    some (writeBytes m values (readBytes m value 4), values + 4)
  | FfiKind.uint64 =>
    some (writeBytes m values (readBytes m value 8), values + 8)
  | FfiKind.sint64 =>
    some (writeBytes m values (readBytes m value 8), values + 8)
  | FfiKind.double =>
    some (writeBytes m values (readBytes m value 8), values + 8)
  | FfiKind.pointer =>
    some (writeBytes m values (readBytes m value 4), values + 4)
  | FfiKind.struct =>
    some (writeBytes m values (natToLE value 4), values + 4)
  | FfiKind.longdouble =>
    some (writeBytes m values (readBytes m value 16), values + 16)
  | FfiKind.complex => none

/-- take_value from ffi.c: raise one value from the values buffer at
cursor values, returning a typed pointer and the advanced cursor. For
every non-STRUCT kind the pointer is the cursor itself; for STRUCT the
slot contains the pointer, so it is dereferenced (read as LE32).
COMPLEX aborts (none). -/
def take_value (type : FfiType) (values : Nat) (m : Mem) :
    Option (Nat × Nat) :=
  match type.kind with
  | FfiKind.void => some (values, values)
  | FfiKind.uint8 => some (values, values + 4)
  | FfiKind.sint8 => some (values, values + 4)
  | FfiKind.uint16 => some (values, values + 4)
  | FfiKind.sint16 => some (values, values + 4)
  | FfiKind.uint32 => some (values, values + 4)
  | FfiKind.int => some (values, values + 4)
  | FfiKind.sint32 => some (values, values + 4)
  | FfiKind.float => some (values, values + 4)
  | FfiKind.uint64 => some (values, values + 8)
  | FfiKind.sint64 => some (values, values + 8)
  | FfiKind.double => some (values, values + 8)
  | FfiKind.pointer => some (values, values + 4)
  | FfiKind.struct => some (readLE32 m values, values + 4)
  | FfiKind.longdouble => some (values, values + 16)
  | FfiKind.complex => none

/-- The size, in the C language, of the representation a value of this
kind is re-read through after raising (its proper narrow type). -/
def c_value_size : FfiKind → Nat
  | FfiKind.void => 0
  | FfiKind.uint8 => 1
  | FfiKind.sint8 => 1
  | FfiKind.uint16 => 2
  | FfiKind.sint16 => 2
  | FfiKind.int => 4
  | FfiKind.uint32 => 4
  | FfiKind.sint32 => 4
  | FfiKind.float => 4
  | FfiKind.uint64 => 8
  | FfiKind.sint64 => 8
  | FfiKind.double => 8
  | FfiKind.pointer => 4
  | FfiKind.longdouble => 16
  | FfiKind.struct => 0
  | FfiKind.complex => 0

/-- The argument-filling loop of ffi_call: place each argument value
(an address from avalue) according to its type, threading the cursor.
Runs out of values only if avalue is shorter than arg_types (an
out-of-bounds read in C, modelled as none). -/
def place_values_loop : List FfiType → List Nat → Nat → Mem → Option (Mem × Nat)
  | [], _, c, m => some (m, c)
  | t :: ts, v :: vs, c, m =>
    match place_value t v c m with
    | some (m2, c2) => place_values_loop ts vs c2 m2
    | none => none
  | _ :: _, [], _, _ => none

/-- The total-size loop of ffi_call: sum of type_size over the
argument types. -/
def args_total_size : List FfiType → Option Nat
  | [] => some 0
  | t :: ts =>
    match type_size (some t), args_total_size ts with
    | some s, some r => some (s + r)
    | _, _ => none

/-- The observable frame ffi_call hands to impl_call_dynamic: the
length of the values buffer, the memory after filling it at base, the
base address, and the results_len argument. -/
structure CallFrame where
  total_size : Nat
  buffer : Mem
  base : Nat
  results_len : Nat

/-- ffi_call, non-emscripten (WASIX) variant, up to the call of
impl_call_dynamic: compute total_size (adding type_size of the return
type when the return is indirect), write rvalue into the first four
bytes when indirect, lower every argument, and pass results_len = 0
when indirect and type_size of the return type otherwise. none models
an abort. base is the address of the stack-allocated values buffer,
rvalue the return-storage address, avalue the argument addresses. -/
def ffi_call (cif : FfiCif) (rvalue : Nat) (avalue : List Nat) (base : Nat)
    (m : Mem) : Option CallFrame :=
  match args_total_size cif.arg_types, return_indirect cif.rtype,
      type_size cif.rtype with
  | some argsz, some indirect_return, some rsz =>
    let total_size := (if indirect_return then rsz else 0) + argsz
    let m1 := if indirect_return then writeBytes m base (natToLE rvalue 4) else m
    let c1 := if indirect_return then base + 4 else base
    match place_values_loop cif.arg_types avalue c1 m1 with
    | some (m2, _) =>
      some ⟨total_size, m2, base, if indirect_return then 0 else rsz⟩
    | none => none
  | _, _, _ => none

/-! Concrete inputs used by the theorems below. -/

/-- A struct descriptor holding a single long double (size 16,
alignment 16), e.g. struct \x7b long double x; \x7d. -/
def struct_of_longdouble : FfiType :=
  FfiType.mk 16 16 FfiKind.struct [ffi_type_longdouble]

/-- A CIF returning struct_of_longdouble with no arguments, under the
WASM32 abi. -/
def cif_ld_ret : FfiCif :=
  { abi := FFI_WASM32, nargs := 0, arg_types := [], rtype := some struct_of_longdouble,
    nfixedargs := 0, flags := 0 }

/-- A CIF carrying the emscripten abi tag (foreign to the WASM32
variant), void return, no arguments. -/
def cif_em_tag : FfiCif :=
  { abi := FFI_WASM32_EMSCRIPTEN, nargs := 0, arg_types := [], rtype := none,
    nfixedargs := 0, flags := 0 }

/-- The return-type kinds the classifier declares directly returned. -/
def direct_return_kinds : List FfiKind :=
  [FfiKind.void, FfiKind.int, FfiKind.uint8, FfiKind.sint8, FfiKind.uint16,
   FfiKind.sint16, FfiKind.uint32, FfiKind.sint32, FfiKind.uint64, FfiKind.sint64,
   FfiKind.float, FfiKind.double, FfiKind.pointer]

/-! ## C8 -/

/-- Claim C8: replace_type on a descriptor of kind LONGDOUBLE with in_results
true rewrites it in place to a struct of two 64-bit signed integers
(ffi_type_sint64 twice) with size 16 and alignment 16; the returned
kind (the kind field of the result) is STRUCT. -/
theorem replace_type_longdouble_in_results (s a : Nat) (es : List FfiType) :
    replace_type (FfiType.mk s a FfiKind.longdouble es) true =
      some (FfiType.mk 16 16 FfiKind.struct [ffi_type_sint64, ffi_type_sint64]) := rfl

/-- Witness for C8: the built-in long-double descriptor itself is
rewritten to the two-sint64 struct in result position. -/
theorem replace_type_longdouble_in_results_witness :
    replace_type (FfiType.mk 16 16 FfiKind.longdouble []) true =
      some (FfiType.mk 16 16 FfiKind.struct [ffi_type_sint64, ffi_type_sint64]) :=
  replace_type_longdouble_in_results 16 16 []

/-! ## C1 -/

/-- Claim C1 (refuted, code bug): the claim says that after
ffi_prep_cif_machdep the return type never has kind LONGDOUBLE and
every reachable STRUCT has at least two non-void elements. On the CIF
returning struct \x7b long double \x7d, ffi_prep_cif_machdep returns OK
and leaves the return type with kind LONGDOUBLE: the single-element
collapse copies the element kind into the struct without applying the
in_results long-double rewrite, contradicting replace_type's own
documented postcondition and the abort message in return_indirect. -/
theorem canonical_form_violation :
    (ffi_prep_cif_machdep cif_ld_ret).map (fun p => (p.2, p.1.rtype.map FfiType.kind)) =
      some (FfiStatus.ok, some FfiKind.longdouble) := rfl

/-! ## C6 -/

/-- Claim C6 (refuted, code bug): ffi_prep_cif_machdep is not idempotent. On
the CIF returning struct \x7b long double \x7d the first call returns
OK with the return type collapsed to kind LONGDOUBLE, and a second call
rewrites that descriptor again, to a two-sint64 STRUCT — the second
call is not a no-op. -/
theorem idempotence_violation :
    (ffi_prep_cif_machdep cif_ld_ret).map (fun p => p.1.rtype.map FfiType.kind) =
      some (some FfiKind.longdouble)
    ∧ ((ffi_prep_cif_machdep cif_ld_ret).bind (fun p => ffi_prep_cif_machdep p.1)).map
        (fun p => p.1.rtype.map FfiType.kind) = some (some FfiKind.struct) :=
  ⟨rfl, rfl⟩

/-! ## C2 -/

/-- Claim C2: return_indirect is true exactly for (canonical) STRUCT: it is
false for a null return type (treated as void), false for every kind in
direct_return_kinds (VOID, all integer kinds including the 64-bit ones,
FLOAT, DOUBLE, POINTER), and true for STRUCT. -/
theorem return_indirect_iff_struct :
    return_indirect none = some false
    ∧ (∀ t : FfiType, t.kind = FfiKind.struct → return_indirect (some t) = some true)
    ∧ (∀ t : FfiType, t.kind ∈ direct_return_kinds → return_indirect (some t) = some false) := by
  refine ⟨rfl, ?_, ?_⟩
  · intro t h
    obtain ⟨s, a, k, es⟩ := t
    simp only [FfiType.kind] at h
    subst h
    rfl
  · intro t h
    obtain ⟨s, a, k, es⟩ := t
    simp only [FfiType.kind] at h ⊢
    fin_cases h <;> rfl

/-- Witness for C2: the classifier reports a direct return for
ffi_type_double. -/
theorem return_indirect_iff_struct_witness :
    return_indirect (some ffi_type_double) = some false :=
  return_indirect_iff_struct.2.2 ffi_type_double (by decide)

/-! ## C10 -/

/-- A CIF with nfixedargs 5 and empty flags, used to exhibit the
mutation performed by ffi_prep_cif_machdep_var. -/
def cif_varargs_example : FfiCif :=
  { abi := FFI_WASM32, nargs := 3, arg_types := [], rtype := none,
    nfixedargs := 5, flags := 0 }

/-- Setting bit 0 by lor makes bit 0 set. -/
theorem lor_one_testBit_zero (x : Nat) : Nat.testBit (Nat.lor x 1) 0 = true := by
  show (x ||| 1).testBit 0 = true
  rw [Nat.testBit_lor]
  simp

/-- Claim C10: in the non-emscripten variant ffi_prep_cif_machdep_var always
returns BAD_ABI, yet before returning it sets the VARARGS bit in
cif.flags and overwrites cif.nfixedargs with the supplied value (all
other fields are untouched); in particular on cif_varargs_example the
returned CIF differs from the input. -/
theorem machdep_var_mutates_on_bad_abi :
    (∀ (cif : FfiCif) (nf nt : Nat),
      (ffi_prep_cif_machdep_var cif nf nt).2 = FfiStatus.bad_abi
      ∧ (ffi_prep_cif_machdep_var cif nf nt).1.flags = Nat.lor cif.flags VARARGS_FLAG
      ∧ Nat.testBit (ffi_prep_cif_machdep_var cif nf nt).1.flags 0 = true
      ∧ (ffi_prep_cif_machdep_var cif nf nt).1.nfixedargs = nf
      ∧ (ffi_prep_cif_machdep_var cif nf nt).1.abi = cif.abi
      ∧ (ffi_prep_cif_machdep_var cif nf nt).1.nargs = cif.nargs
      ∧ (ffi_prep_cif_machdep_var cif nf nt).1.arg_types = cif.arg_types
      ∧ (ffi_prep_cif_machdep_var cif nf nt).1.rtype = cif.rtype)
    ∧ (ffi_prep_cif_machdep_var cif_varargs_example 2 3).1 ≠ cif_varargs_example := by
  constructor
  · intro cif nf nt
    refine ⟨rfl, rfl, ?_, rfl, rfl, rfl, rfl, rfl⟩
    exact lor_one_testBit_zero cif.flags
  · intro h
    have h2 := congrArg FfiCif.nfixedargs h
    simp [ffi_prep_cif_machdep_var, cif_varargs_example] at h2

/-- Witness for C10: on the concrete CIF with nfixedargs 5 and clear
flags, the call returns BAD_ABI and the CIF comes back mutated. -/
theorem machdep_var_mutates_on_bad_abi_witness :
    (ffi_prep_cif_machdep_var cif_varargs_example 2 3).2 = FfiStatus.bad_abi
    ∧ (ffi_prep_cif_machdep_var cif_varargs_example 2 3).1.flags =
        Nat.lor cif_varargs_example.flags VARARGS_FLAG
    ∧ Nat.testBit (ffi_prep_cif_machdep_var cif_varargs_example 2 3).1.flags 0 = true
    ∧ (ffi_prep_cif_machdep_var cif_varargs_example 2 3).1.nfixedargs = 2
    ∧ (ffi_prep_cif_machdep_var cif_varargs_example 2 3).1.abi = cif_varargs_example.abi
    ∧ (ffi_prep_cif_machdep_var cif_varargs_example 2 3).1.nargs = cif_varargs_example.nargs
    ∧ (ffi_prep_cif_machdep_var cif_varargs_example 2 3).1.arg_types =
        cif_varargs_example.arg_types
    ∧ (ffi_prep_cif_machdep_var cif_varargs_example 2 3).1.rtype =
        cif_varargs_example.rtype :=
  machdep_var_mutates_on_bad_abi.1 cif_varargs_example 2 3

/-! ## C4 -/

/-- Claim C4 (refuted): the claim says ffi_prep_cif_machdep returns BAD_ABI
for any abi tag other than the variant's own. In the non-emscripten
variant ffi_prep_cif_machdep performs no abi check at all: on a CIF
tagged FFI_WASM32_EMSCRIPTEN it returns OK, not BAD_ABI. -/
theorem machdep_no_abi_check_counterexample :
    (ffi_prep_cif_machdep cif_em_tag).map Prod.snd = some FfiStatus.ok := rfl

/-- Claim C4 (amended): in the non-emscripten variant, ffi_prep_closure_loc
returns BAD_ABI exactly when cif.abi = FFI_WASM32_EMSCRIPTEN (any other
tag, recognised or not, is not refused); the non-emscripten
ffi_prep_cif_machdep never returns BAD_ABI; only the emscripten variant
rejects every tag other than FFI_WASM32_EMSCRIPTEN with BAD_ABI. -/
theorem abi_rejection_amended :
    (∀ cif : FfiCif, cif.abi = FFI_WASM32_EMSCRIPTEN →
      ffi_prep_closure_loc cif = some FfiStatus.bad_abi)
    ∧ (∀ (cif : FfiCif) (st : FfiStatus), ffi_prep_closure_loc cif = some st →
        st = FfiStatus.bad_abi → cif.abi = FFI_WASM32_EMSCRIPTEN)
    ∧ (∀ (cif cif2 : FfiCif) (st : FfiStatus),
        ffi_prep_cif_machdep cif = some (cif2, st) → st ≠ FfiStatus.bad_abi)
    ∧ (∀ cif : FfiCif, cif.abi ≠ FFI_WASM32_EMSCRIPTEN →
        ffi_prep_cif_machdep_em cif = some (cif, FfiStatus.bad_abi)) := by
  refine ⟨?_, ?_, ?_, ?_⟩
  · intro cif h
    simp [ffi_prep_closure_loc, h]
  · intro cif st h hst
    by_contra habi
    simp only [ffi_prep_closure_loc, if_neg habi] at h
    split at h <;> try exact Option.noConfusion h
    split at h <;> try exact Option.noConfusion h
    subst hst
    simp at h
  · intro cif cif2 st h
    unfold ffi_prep_cif_machdep at h
    split at h
    · split at h <;> split at h <;>
        simp only [Option.some.injEq, Prod.mk.injEq] at h <;>
        (obtain ⟨h1, h2⟩ := h; subst h2; decide)
    · exact Option.noConfusion h
  · intro cif h
    simp [ffi_prep_cif_machdep_em, h]

/-- Witness for C4's amended statement: the closure preparer rejects
the emscripten tag with BAD_ABI. -/
theorem abi_rejection_amended_witness :
    ffi_prep_closure_loc cif_em_tag = some FfiStatus.bad_abi :=
  abi_rejection_amended.1 cif_em_tag rfl

/-! ## C3 -/

/-- Claim C3: ffi_prep_cif_machdep returns BAD_TYPEDEF iff nargs > 1000. In
the non-emscripten variant this iff holds for every CIF on which the
call returns (does not abort), and whenever nargs ≤ 1000 the result is
OK. In the emscripten variant the same iff holds subject to its other
checks (the abi tag is FFI_WASM32_EMSCRIPTEN and neither the return
type nor any argument type is COMPLEX). -/
theorem slot_budget :
    (∀ (cif cif2 : FfiCif) (st : FfiStatus),
      ffi_prep_cif_machdep cif = some (cif2, st) →
      ((st = FfiStatus.bad_typedef ↔ cif.nargs > MAX_ARGS)
        ∧ (cif.nargs ≤ MAX_ARGS → st = FfiStatus.ok)))
    ∧ (∀ (cif cif2 : FfiCif) (st : FfiStatus) (rt : FfiType),
      cif.abi = FFI_WASM32_EMSCRIPTEN → cif.rtype = some rt →
      rt.kind ≠ FfiKind.complex → (∀ t ∈ cif.arg_types, t.kind ≠ FfiKind.complex) →
      ffi_prep_cif_machdep_em cif = some (cif2, st) →
      ((st = FfiStatus.bad_typedef ↔ cif.nargs > MAX_ARGS)
        ∧ (cif.nargs ≤ MAX_ARGS → st = FfiStatus.ok))) := by
  constructor
  · intro cif cif2 st h
    unfold ffi_prep_cif_machdep at h
    split at h
    · split at h <;> split at h <;>
        simp only [Option.some.injEq, Prod.mk.injEq] at h <;>
        (obtain ⟨h1, h2⟩ := h; subst h2) <;>
        simp_all
    · exact Option.noConfusion h
  · intro cif cif2 st rt habi hrt hcomplex hargs h
    have hany : cif.arg_types.any (fun t => t.kind == FfiKind.complex) = false := by
      simp only [List.any_eq_false, beq_iff_eq]
      exact hargs
    unfold ffi_prep_cif_machdep_em at h
    rw [if_neg (by simp [habi])] at h
    split at h
    · exact Option.noConfusion h
    · rename_i rt2 heq
      rw [hrt] at heq
      injection heq with he
      subst he
      rw [if_neg hcomplex, hany] at h
      simp only [Bool.false_eq_true, if_false] at h
      split at h <;> split at h <;>
        simp only [Option.some.injEq, Prod.mk.injEq] at h <;>
        (obtain ⟨h1, h2⟩ := h; subst h2) <;>
        simp_all

/-- Witness for C3: a CIF with no arguments (nargs = 0 ≤ 1000) is
accepted with OK and not BAD_TYPEDEF. -/
theorem slot_budget_witness :
    ((FfiStatus.ok = FfiStatus.bad_typedef ↔ cif_ld_ret.nargs > MAX_ARGS)
      ∧ (cif_ld_ret.nargs ≤ MAX_ARGS → FfiStatus.ok = FfiStatus.ok)) :=
  slot_budget.1 cif_ld_ret
    { cif_ld_ret with rtype := some (FfiType.mk 16 16 FfiKind.longdouble [ffi_type_longdouble]) }
    FfiStatus.ok rfl

/-! ## C9 -/

/-- If the canonicalised element list has no non-void element, the
struct loop ends with scalar_type = VOID and count 0. -/
theorem collapse_scan_of_filter_nil (l : List FfiType)
    (h : l.filter (fun e => decide (e.kind ≠ FfiKind.void)) = []) :
    collapse_scan l = (FfiKind.void, 0) := by
  induction l with
  | nil => rfl
  | cons e rest ih =>
    by_cases hv : e.kind = FfiKind.void
    · rw [List.filter_cons_of_neg (by simp [hv])] at h
      simp [collapse_scan, hv, ih h]
    · rw [List.filter_cons_of_pos (by simp [hv])] at h
      exact List.noConfusion h

/-- If the canonicalised element list has exactly one non-void element
e0, the struct loop ends with scalar_type = e0.kind and count 1. -/
theorem collapse_scan_of_filter_single (l : List FfiType) (e0 : FfiType)
    (h : l.filter (fun e => decide (e.kind ≠ FfiKind.void)) = [e0]) :
    collapse_scan l = (e0.kind, 1) := by
  induction l with
  | nil => exact List.noConfusion h
  | cons e rest ih =>
    by_cases hv : e.kind = FfiKind.void
    · rw [List.filter_cons_of_neg (by simp [hv])] at h
      simp [collapse_scan, hv, ih h]
    · rw [List.filter_cons_of_pos (by simp [hv])] at h
      obtain ⟨he, hrest⟩ := List.cons_eq_cons.mp h
      subst he
      simp [collapse_scan, hv, collapse_scan_of_filter_nil rest hrest]

/-- Claim C9: for a struct descriptor (of non-zero size, so the zero-size
VOID rewrite does not apply) whose recursively canonicalised element
list es2 has at most one non-void element, replace_type overwrites only
the kind field — with the single element's kind, or VOID when no
non-void element remains — and leaves size and alignment at their
original values; the element list becomes the canonicalised es2. -/
theorem single_element_collapse :
    (∀ (s a : Nat) (inr : Bool) (es es2 : List FfiType) (e0 : FfiType),
      s ≠ 0 → replace_elements es = some es2 →
      es2.filter (fun e => decide (e.kind ≠ FfiKind.void)) = [e0] →
      ∃ u, replace_type (FfiType.mk s a FfiKind.struct es) inr = some u
        ∧ u.kind = e0.kind ∧ u.size = s ∧ u.alignment = a ∧ u.elements = es2)
    ∧ (∀ (s a : Nat) (inr : Bool) (es es2 : List FfiType),
      s ≠ 0 → replace_elements es = some es2 →
      es2.filter (fun e => decide (e.kind ≠ FfiKind.void)) = [] →
      ∃ u, replace_type (FfiType.mk s a FfiKind.struct es) inr = some u
        ∧ u.kind = FfiKind.void ∧ u.size = s ∧ u.alignment = a ∧ u.elements = es2) := by
  constructor
  · intro s a inr es es2 e0 hs hrep hf
    refine ⟨FfiType.mk s a e0.kind es2, ?_, rfl, rfl, rfl, rfl⟩
    rw [replace_type.eq_def]
    simp [hs, hrep, collapse_scan_of_filter_single es2 e0 hf]
  · intro s a inr es es2 hs hrep hf
    refine ⟨FfiType.mk s a FfiKind.void es2, ?_, rfl, rfl, rfl, rfl⟩
    rw [replace_type.eq_def]
    simp [hs, hrep, collapse_scan_of_filter_nil es2 hf]

/-- Witness for C9: struct \x7b int x; \x7d (one sint32 element, size 4,
alignment 4) collapses to kind SINT32 with size and alignment kept. -/
theorem single_element_collapse_witness :
    ∃ u, replace_type (FfiType.mk 4 4 FfiKind.struct [ffi_type_sint32]) false = some u
      ∧ u.kind = ffi_type_sint32.kind ∧ u.size = 4 ∧ u.alignment = 4
      ∧ u.elements = [ffi_type_sint32] :=
  single_element_collapse.1 4 4 false [ffi_type_sint32] [ffi_type_sint32] ffi_type_sint32
    (by decide) rfl rfl

/-! ## C5 -/

/-- readBytes always returns n bytes. -/
theorem readBytes_length (m : Mem) (a n : Nat) : (readBytes m a n).length = n := by
  simp [readBytes]

/-- Reading back the first n bytes of a write of at least n bytes. -/
theorem readBytes_writeBytes (m : Mem) (a : Nat) (bs : List Nat) (n : Nat)
    (h : n ≤ bs.length) :
    readBytes (writeBytes m a bs) a n = bs.take n := by
  apply List.ext_getElem
  · simp [readBytes, Nat.min_eq_left h]
  · intro i h1 h2
    simp only [readBytes, writeBytes, List.getElem_map, List.getElem_range,
      List.getElem_take]
    rw [if_pos ⟨Nat.le_add_right a i, by
      simp only [readBytes, List.length_map, List.length_range] at h1
      omega⟩]
    rw [Nat.add_sub_cancel_left]
    exact List.getD_eq_getElem bs 0 (by
      simp only [readBytes, List.length_map, List.length_range] at h1
      omega)

/-- Reading back the bytes copied from source address v, through a
write that appended a (zero or sign extension) suffix to them. -/
theorem readBytes_write_prefix (m : Mem) (c v k : Nat) (suf : List Nat) :
    readBytes (writeBytes m c (readBytes m v k ++ suf)) c k = readBytes m v k := by
  rw [readBytes_writeBytes _ _ _ _ (by simp [readBytes_length])]
  have h := List.take_left (readBytes m v k) suf
  rwa [readBytes_length] at h

/-- Reading back an unextended full-width copy. -/
theorem readBytes_write_self (m : Mem) (c v k : Nat) :
    readBytes (writeBytes m c (readBytes m v k)) c k = readBytes m v k := by
  have h := readBytes_write_prefix m c v k []
  rwa [List.append_nil] at h

/-- Claim C5: for every non-STRUCT (and non-COMPLEX) canonical type,
lowering the value at address v with place_value and then raising with
take_value succeeds, yields the buffer cursor c back as the typed
pointer, advances both cursors by the same wasm-ABI size (type_size),
and re-reading through the value's proper narrow type at that pointer
gives back the original value byte-for-byte (narrow integers having
been widened per signedness on lowering, their low-order bytes are
unchanged). -/
theorem lower_raise_roundtrip (t : FfiType) (v c : Nat) (m : Mem)
    (hs : t.kind ≠ FfiKind.struct) (hc : t.kind ≠ FfiKind.complex) :
    ∃ (m2 : Mem) (c2 : Nat),
      place_value t v c m = some (m2, c2)
      ∧ take_value t c m2 = some (c, c2)
      ∧ c2 = c + (type_size (some t)).getD 0
      ∧ readBytes m2 c (c_value_size t.kind) = readBytes m v (c_value_size t.kind) := by
  obtain ⟨s, a, k, es⟩ := t
  simp only [FfiType.kind] at hs hc ⊢
  cases k
  case void =>
    exact ⟨m, c, rfl, rfl, rfl, by simp [c_value_size, readBytes]⟩
  case uint8 =>
    refine ⟨_, _, rfl, rfl, rfl, ?_⟩
    unfold zextBytes
    exact readBytes_write_prefix m c v 1 _
  case sint8 =>
    refine ⟨_, _, rfl, rfl, rfl, ?_⟩
    unfold sextBytes
    exact readBytes_write_prefix m c v 1 _
  case uint16 =>
    refine ⟨_, _, rfl, rfl, rfl, ?_⟩
    unfold zextBytes
    exact readBytes_write_prefix m c v 2 _
  case sint16 =>
    refine ⟨_, _, rfl, rfl, rfl, ?_⟩
    unfold sextBytes
    exact readBytes_write_prefix m c v 2 _
  case int =>
    exact ⟨_, _, rfl, rfl, rfl, readBytes_write_self m c v 4⟩
  case uint32 =>
    exact ⟨_, _, rfl, rfl, rfl, readBytes_write_self m c v 4⟩
  case sint32 =>
    exact ⟨_, _, rfl, rfl, rfl, readBytes_write_self m c v 4⟩
  case float =>
    exact ⟨_, _, rfl, rfl, rfl, readBytes_write_self m c v 4⟩
  case uint64 =>
    exact ⟨_, _, rfl, rfl, rfl, readBytes_write_self m c v 8⟩
  case sint64 =>
    exact ⟨_, _, rfl, rfl, rfl, readBytes_write_self m c v 8⟩
  case double =>
    exact ⟨_, _, rfl, rfl, rfl, readBytes_write_self m c v 8⟩
  case pointer =>
    exact ⟨_, _, rfl, rfl, rfl, readBytes_write_self m c v 4⟩
  case longdouble =>
    exact ⟨_, _, rfl, rfl, rfl, readBytes_write_self m c v 16⟩
  case struct => exact absurd rfl hs
  case complex => exact absurd rfl hc

/-- An example memory for the witnesses. -/
def exampleMem : Mem := fun x => x % 251

/-- Witness for C5: round trip of a 64-bit signed integer stored at
address 10 through a buffer at address 100. -/
theorem lower_raise_roundtrip_witness :
    ∃ (m2 : Mem) (c2 : Nat),
      place_value ffi_type_sint64 10 100 exampleMem = some (m2, c2)
      ∧ take_value ffi_type_sint64 100 m2 = some (100, c2)
      ∧ c2 = 100 + (type_size (some ffi_type_sint64)).getD 0
      ∧ readBytes m2 100 (c_value_size ffi_type_sint64.kind) =
          readBytes exampleMem 10 (c_value_size ffi_type_sint64.kind) :=
  lower_raise_roundtrip ffi_type_sint64 10 100 exampleMem (by decide) (by decide)

/-! ## C7 -/

/-- writeBytes leaves addresses below the write untouched. -/
theorem writeBytes_below (m : Mem) (a : Nat) (bs : List Nat) (x : Nat)
    (h : x < a) : writeBytes m a bs x = m x := by
  unfold writeBytes
  rw [if_neg]
  omega

/-- place_value only advances the cursor and only writes at or above
it. -/
theorem place_value_lower_frame (t : FfiType) (v c : Nat) (m m2 : Mem) (c2 : Nat)
    (h : place_value t v c m = some (m2, c2)) :
    c ≤ c2 ∧ ∀ x, x < c → m2 x = m x := by
  obtain ⟨s, a, k, es⟩ := t
  cases k <;>
    simp only [place_value, FfiType.kind, Option.some.injEq, Prod.mk.injEq,
      reduceCtorEq] at h <;>
    obtain ⟨hm, hc⟩ := h <;> subst hm <;> subst hc <;>
    refine ⟨by omega, fun x hx => ?_⟩ <;>
    first
      | rfl
      | exact writeBytes_below m c _ x hx

/-- The argument-filling loop only advances the cursor and only writes
at or above it. -/
theorem place_values_loop_lower_frame :
    ∀ (ts : List FfiType) (vs : List Nat) (c : Nat) (m m2 : Mem) (c2 : Nat),
      place_values_loop ts vs c m = some (m2, c2) →
      c ≤ c2 ∧ ∀ x, x < c → m2 x = m x := by
  intro ts
  induction ts with
  | nil =>
    intro vs c m m2 c2 h
    simp only [place_values_loop, Option.some.injEq, Prod.mk.injEq] at h
    obtain ⟨hm, hc⟩ := h
    subst hm
    subst hc
    exact ⟨le_rfl, fun x _ => rfl⟩
  | cons t ts ih =>
    intro vs c m m2 c2 h
    cases vs with
    | nil => simp [place_values_loop] at h
    | cons v vs =>
      rw [place_values_loop] at h
      rcases hp : place_value t v c m with _ | ⟨m3, c3⟩
      · rw [hp] at h
        exact Option.noConfusion h
      · rw [hp] at h
        obtain ⟨h1, h2⟩ := place_value_lower_frame t v c m m3 c3 hp
        obtain ⟨h3, h4⟩ := ih vs c3 m3 m2 c2 h
        exact ⟨le_trans h1 h3, fun x hx => (h4 x (lt_of_lt_of_le hx h1)).trans (h2 x hx)⟩

/-- Memories agreeing below a + n read the same n bytes at a. -/
theorem readBytes_congr_below (m m2 : Mem) (a n : Nat)
    (h : ∀ x, x < a + n → m2 x = m x) :
    readBytes m2 a n = readBytes m a n := by
  apply List.ext_getElem
  · simp [readBytes]
  · intro i h1 h2
    simp only [readBytes, List.getElem_map, List.getElem_range]
    apply h
    simp only [readBytes, List.length_map, List.length_range] at h1
    omega

/-- natToLE produces w bytes. -/
theorem natToLE_length (v w : Nat) : (natToLE v w).length = w := by
  simp [natToLE]

/-- Reading back an entire write. -/
theorem readBytes_writeBytes_all (m : Mem) (a : Nat) (bs : List Nat) :
    readBytes (writeBytes m a bs) a bs.length = bs := by
  rw [readBytes_writeBytes _ _ _ _ le_rfl, List.take_length]

/-- An indirect return means the (canonical) return type is a STRUCT,
whose wasm-ABI size is 4 (a pointer slot). -/
theorem type_size_of_return_indirect (rt? : Option FfiType)
    (h : return_indirect rt? = some true) : type_size rt? = some 4 := by
  rcases rt? with _ | rt
  · simp [return_indirect] at h
  · obtain ⟨s, a, k, es⟩ := rt
    cases k <;> simp [return_indirect, FfiType.kind] at h <;> rfl

/-- Claim C7: ffi_call builds a values buffer of exactly
(4 if the return is indirect, else 0) plus the sum of the wasm-ABI
sizes of the argument types; when the return is indirect the first four
buffer bytes hold the rvalue pointer (as a little-endian i32) and the
result-buffer length passed to the host dynamic-call primitive is 0;
otherwise the result-buffer length is the wasm-ABI size of the return
type. -/
theorem ffi_call_frame_spec (cif : FfiCif) (rvalue : Nat) (avalue : List Nat)
    (base : Nat) (m : Mem) (ind : Bool)
    (hind : return_indirect cif.rtype = some ind)
    (hsome : (ffi_call cif rvalue avalue base m).isSome = true) :
    (ffi_call cif rvalue avalue base m).map CallFrame.total_size =
      some ((if ind then 4 else 0) + (args_total_size cif.arg_types).getD 0)
    ∧ (ffi_call cif rvalue avalue base m).map CallFrame.results_len =
      some (if ind then 0 else (type_size cif.rtype).getD 0)
    ∧ (ind = true →
      (ffi_call cif rvalue avalue base m).map (fun f => readBytes f.buffer base 4) =
        some (natToLE rvalue 4)) := by
  rcases hargs : args_total_size cif.arg_types with _ | argsz
  · rw [ffi_call, hargs] at hsome
    exact absurd hsome (by simp)
  rcases hts : type_size cif.rtype with _ | rsz
  · rw [ffi_call, hargs, hind, hts] at hsome
    exact absurd hsome (by simp)
  cases ind
  case false =>
    rcases hloop : place_values_loop cif.arg_types avalue base m with _ | ⟨m2, cend⟩
    · exfalso
      rw [ffi_call, hargs, hind, hts] at hsome
      simp [hloop] at hsome
    · refine ⟨?_, ?_, ?_⟩ <;> simp [ffi_call, hargs, hind, hts, hloop]
  case true =>
    have hrsz : rsz = 4 := by
      have h4 := type_size_of_return_indirect cif.rtype hind
      rw [hts] at h4
      exact Option.some_inj.mp h4
    subst hrsz
    rcases hloop : place_values_loop cif.arg_types avalue (base + 4)
        (writeBytes m base (natToLE rvalue 4)) with _ | ⟨m2, cend⟩
    · exfalso
      rw [ffi_call, hargs, hind, hts] at hsome
      simp [hloop] at hsome
    · have hread : readBytes m2 base 4 = natToLE rvalue 4 := by
        obtain ⟨hle, hbelow⟩ :=
          place_values_loop_lower_frame cif.arg_types avalue (base + 4)
            (writeBytes m base (natToLE rvalue 4)) m2 cend hloop
        rw [readBytes_congr_below _ _ base 4 (fun x hx => hbelow x hx)]
        have hall := readBytes_writeBytes_all m base (natToLE rvalue 4)
        rwa [natToLE_length] at hall
      refine ⟨?_, ?_, fun _ => ?_⟩ <;>
        simp [ffi_call, hargs, hind, hts, hloop, hread]

/-- A struct \x7b int; int; \x7d descriptor (size 8, alignment 4). -/
def struct_int_int : FfiType :=
  FfiType.mk 8 4 FfiKind.struct [ffi_type_sint32, ffi_type_sint32]

/-- A CIF for struct_int_int swap(struct_int_int), already canonical. -/
def cif_swap : FfiCif :=
  { abi := FFI_WASM32, nargs := 1, arg_types := [struct_int_int],
    rtype := some struct_int_int, nfixedargs := 1, flags := 0 }

/-- Witness for C7: the struct-returning swap CIF builds an 8-byte
buffer (4 for the hidden return pointer, 4 for the by-pointer struct
argument), stores the rvalue pointer 600 in the first four bytes, and
passes results_len 0. -/
theorem ffi_call_frame_spec_witness :
    (ffi_call cif_swap 600 [500] 1000 exampleMem).map CallFrame.total_size =
      some ((if true then 4 else 0) + (args_total_size cif_swap.arg_types).getD 0)
    ∧ (ffi_call cif_swap 600 [500] 1000 exampleMem).map CallFrame.results_len =
      some (if true then 0 else (type_size cif_swap.rtype).getD 0)
    ∧ (true = true →
      (ffi_call cif_swap 600 [500] 1000 exampleMem).map
          (fun f => readBytes f.buffer 1000 4) =
        some (natToLE 600 4)) :=
  ffi_call_frame_spec cif_swap 600 [500] 1000 exampleMem true rfl rfl

end Wasm32Ffi
